import Mathlib

/-! Shallow embedding of the BeatDock search-session store, pagination and queue
helpers, together with proofs about them.

The definitions below are translated from the JavaScript sources:
* `src/utils/searchSessions.js` — the `SearchSessionManager` class (an
  in-memory `Map` from session id to session data, modelled here as an
  association list `Store` in insertion order, mirroring JS `Map` semantics).
* `src/utils/PlayerActions.js` — `jumpToTrack` and `paginatedQueue`.
* `src/interactions/searchNavigation.js` — the synchronous, state-relevant
  core of `handleSearchNavigation` (Discord replies are modelled by the
  `NavReply` type; work scheduled with `setImmediate` is modelled by a list
  of `DeferredAction`s emitted by the handler).

JavaScript numbers appearing here are integers throughout (`Date.now()`
timestamps, page numbers, array indices), so they are modelled as `Nat`/`Int`.
`Date.now()` is passed explicitly as a `now : Nat` argument.
-/

namespace BeatDock

/-- Payload `info` of a Lavalink track; only the fields the embedded code
touches. Each is optional, matching the `track.info?.title` style accesses. -/
structure TrackInfo where
  title : Option String
  author : Option String
  uri : Option String
  duration : Option Nat
deriving DecidableEq, Repr

/-- A Lavalink track object; `info` itself may be absent (`track.info?`). -/
structure Track where
  info : Option TrackInfo
deriving DecidableEq, Repr

/-- Models the access `track.info?.title || "Unknown"`. -/
def trackTitle (t : Track) : String :=
  ((t.info.bind TrackInfo.title)).getD "Unknown"

/-- Session data created by `SearchSessionManager.createSession`.
`selectedTracks` and `queuedTracks` are JS `Set`s of indices, modelled as
`Finset Nat`.  `currentPage` is an `Int` because `updatePage` receives an
arbitrary (possibly negative) requested page. -/
structure Session where
  sessionId : String
  userId : String
  guildId : String
  query : String
  tracks : List Track
  selectedTracks : Finset Nat
  queuedTracks : Finset Nat
  currentPage : Int
  tracksPerPage : Nat
  createdAt : Nat
deriving DecidableEq

/-- The `this.sessions` JS `Map` of the manager, in insertion order. -/
abbrev Store := List (String × Session)

/-- JS `Map.prototype.get` (first — and in a real `Map` only — binding). -/
def mapGet : Store → String → Option Session
  | [], _ => none
  | p :: rest, sid => if p.1 = sid then some p.2 else mapGet rest sid

/-- JS `Map.prototype.set`: replace the existing binding in place, or append. -/
def mapSet : Store → String → Session → Store
  | [], sid, s => [(sid, s)]
  | p :: rest, sid, s =>
      if p.1 = sid then (sid, s) :: rest else p :: mapSet rest sid s

/-- JS `Map.prototype.delete`: remove the binding, report whether it existed. -/
def mapDelete : Store → String → Store × Bool
  | [], _ => ([], false)
  | p :: rest, sid =>
      if p.1 = sid then (rest, true)
      else
        let r := mapDelete rest sid
        (p :: r.1, r.2)

/-- A JS `Map` has no duplicate keys; the association-list model is
well-formed when its keys are distinct. -/
def storeWF (store : Store) : Prop := (store.map Prod.fst).Nodup

/-- Mutating the session object held under a key (JS mutates the object the
map points at; the binding itself is unchanged). -/
def mapMutate : Store → String → Session → Store
  | [], _, _ => []
  | p :: rest, sid, s =>
      if p.1 = sid then (p.1, s) :: rest else p :: mapMutate rest sid s

/-- JS `Math.ceil(a / b)` for non-negative integers `a` and positive `b`. -/
def jsCeilDiv (a b : Nat) : Nat := (a + b - 1) / b

/-- JS `Array.prototype.slice(s, e)` with integer arguments. -/
def jsSlice (l : List α) (s e : Int) : List α :=
  let len : Int := l.length
  let sClamped : Int := if s < 0 then max (len + s) 0 else min s len
  let eClamped : Int := if e < 0 then max (len + e) 0 else min e len
  (l.drop sClamped.toNat).take (eClamped - sClamped).toNat

/-- Models `createSession(userId, guildId, tracks, query)` from
`src/utils/searchSessions.js` (lines 25–43): the id is
`` `${userId}-${Date.now()}` `` and the session is stored with
`currentPage = 1`, `tracksPerPage = 5` and empty selection sets.
Returns the updated store and the sessionId. -/
def createSession (store : Store) (userId guildId : String) (tracks : List Track)
    (query : String) (now : Nat) : Store × String :=
  let sessionId := userId ++ "-" ++ toString now
  let sessionData : Session :=
    { sessionId := sessionId, userId := userId, guildId := guildId, query := query
      tracks := tracks
      selectedTracks := ∅
      queuedTracks := ∅
      currentPage := 1
      tracksPerPage := 5
      createdAt := now }
  (mapSet store sessionId sessionData, sessionId)

/-- Models `getSession(sessionId)`: `this.sessions.get(sessionId) || null`. -/
def getSession (store : Store) (sessionId : String) : Option Session :=
  mapGet store sessionId

/-- Models `updatePage(sessionId, page)` (lines 60–69): clamp the requested page with
`Math.max(1, Math.min(page, totalPages))` and store it; `false` iff absent. -/
def updatePage (store : Store) (sessionId : String) (page : Int) : Store × Bool :=
  match mapGet store sessionId with
  | none => (store, false)
  | some session =>
      let totalPages : Nat := jsCeilDiv session.tracks.length session.tracksPerPage
      let validPage : Int := max 1 (min page (totalPages : Int))
      (mapMutate store sessionId { session with currentPage := validPage }, true)

/-- Models `toggleTrackSelection(sessionId, trackIndex)` (lines 77–90): flips
membership of the index in `selectedTracks`; returns the new selection state
(`false` also when the session is absent or the index out of range). -/
def toggleTrackSelection (store : Store) (sessionId : String) (trackIndex : Int) :
    Store × Bool :=
  match mapGet store sessionId with
  | none => (store, false)
  | some session =>
      if trackIndex < 0 ∨ (session.tracks.length : Int) ≤ trackIndex then
        (store, false)
      else if trackIndex.toNat ∈ session.selectedTracks then
        (mapMutate store sessionId
          { session with selectedTracks := session.selectedTracks.erase trackIndex.toNat },
         false)
      else
        (mapMutate store sessionId
          { session with selectedTracks := insert trackIndex.toNat session.selectedTracks },
         true)

/-- Models `markTrackQueued(sessionId, trackIndex)` (lines 140–148). -/
def markTrackQueued (store : Store) (sessionId : String) (trackIndex : Int) :
    Store × Bool :=
  match mapGet store sessionId with
  | none => (store, false)
  | some session =>
      if trackIndex < 0 ∨ (session.tracks.length : Int) ≤ trackIndex then
        (store, false)
      else
        (mapMutate store sessionId
          { session with queuedTracks := insert trackIndex.toNat session.queuedTracks },
         true)

/-- Models `unmarkTrackQueued(sessionId, trackIndex)` (lines 156–162). -/
def unmarkTrackQueued (store : Store) (sessionId : String) (trackIndex : Int) :
    Store × Bool :=
  match mapGet store sessionId with
  | none => (store, false)
  | some session =>
      (mapMutate store sessionId
        { session with queuedTracks := session.queuedTracks.erase trackIndex.toNat },
       true)

/-- Models `clearSelections(sessionId)` (lines 182–188). -/
def clearSelections (store : Store) (sessionId : String) : Store × Bool :=
  match mapGet store sessionId with
  | none => (store, false)
  | some session =>
      (mapMutate store sessionId { session with selectedTracks := ∅ }, true)

/-- Models `deleteSession(sessionId)` (lines 195–197): `this.sessions.delete(...)`. -/
def deleteSession (store : Store) (sessionId : String) : Store × Bool :=
  mapDelete store sessionId

/-- Models `cleanupOldSessions(maxAge)` (lines 204–216): delete every session with
`now - session.createdAt > maxAge` and return how many were deleted. -/
def cleanupOldSessions (store : Store) (now maxAge : Nat) : Store × Nat :=
  match store with
  | [] => ([], 0)
  | p :: rest =>
      let r := cleanupOldSessions rest now maxAge
      if maxAge < now - p.2.createdAt then (r.1, r.2 + 1) else (p :: r.1, r.2)

/-- The object returned by `getCurrentPageData` (lines 109–132). -/
structure PageData where
  tracks : List Track
  currentPage : Int
  totalPages : Nat
  totalTracks : Nat
  hasNext : Bool
  hasPrevious : Bool
  startIndex : Int
  endIndex : Int
  selectedTracks : Finset Nat
  selectedCount : Nat
deriving DecidableEq

/-- Models `getCurrentPageData(sessionId)` (lines 109–132). -/
def getCurrentPageData (store : Store) (sessionId : String) : Option PageData :=
  match mapGet store sessionId with
  | none => none
  | some session =>
      let totalPages : Nat := jsCeilDiv session.tracks.length session.tracksPerPage
      let startIndex : Int := (session.currentPage - 1) * session.tracksPerPage
      let endIndex : Int := min (startIndex + session.tracksPerPage) (session.tracks.length : Int)
      let pageTracks := jsSlice session.tracks startIndex endIndex
      some
        { tracks := pageTracks
          currentPage := session.currentPage
          totalPages := totalPages
          totalTracks := session.tracks.length
          hasNext := decide (session.currentPage < (totalPages : Int))
          hasPrevious := decide (1 < session.currentPage)
          startIndex := startIndex
          endIndex := endIndex
          selectedTracks := session.selectedTracks
          selectedCount := session.selectedTracks.card }

/-- A Lavalink player, reduced to the queue state the embedded code uses. -/
structure Player where
  queueTracks : List Track
deriving DecidableEq

/-- The object returned by `paginatedQueue` in `src/utils/PlayerActions.js`
(lines 79–113).  The early-return object for an empty queue carries no
`startIndex`/`endIndex` fields, hence the `Option`s. -/
structure QueuePageData where
  content : String
  currentPage : Int
  totalPages : Nat
  totalTracks : Nat
  hasNext : Bool
  hasPrevious : Bool
  startIndex : Option Int
  endIndex : Option Int
deriving DecidableEq

/-- Models `paginatedQueue(player, page, itemsPerPage)` (lines 79–113). -/
def paginatedQueue (player : Player) (page : Int) (itemsPerPage : Nat) : QueuePageData :=
  if player.queueTracks.length = 0 then
    { content := "", currentPage := 1, totalPages := 1, totalTracks := 0
      hasNext := false, hasPrevious := false, startIndex := none, endIndex := none }
  else
    let totalTracks : Nat := player.queueTracks.length
    let totalPages : Nat := jsCeilDiv totalTracks itemsPerPage
    let currentPage : Int := max 1 (min page (totalPages : Int))
    let startIndex : Int := (currentPage - 1) * itemsPerPage
    let endIndex : Int := min (startIndex + itemsPerPage) (totalTracks : Int)
    let tracks := jsSlice player.queueTracks startIndex endIndex
    let content := String.intercalate "\n"
      (tracks.enum.map (fun q => toString (startIndex + q.1 + 1) ++ ". " ++ trackTitle q.2))
    { content := content, currentPage := currentPage, totalPages := totalPages
      totalTracks := totalTracks
      hasNext := decide (currentPage < (totalPages : Int))
      hasPrevious := decide (1 < currentPage)
      startIndex := some (startIndex + 1)
      endIndex := some endIndex }

/-- The observable outcome of `jumpToTrack`: the returned track, the queue of
the player afterwards, and whether `player.skip()` was invoked. -/
structure JumpResult where
  result : Option Track
  player : Option Player
  skipped : Bool
deriving DecidableEq

/-- Models `jumpToTrack(player, trackIndex)` (lines 54–77): validate the index,
`splice(0, trackIndex)` away everything before the target, then skip. -/
def jumpToTrack (player : Option Player) (trackIndex : Int) : JumpResult :=
  match player with
  | none => { result := none, player := none, skipped := false }
  | some p =>
      if p.queueTracks.length = 0 then
        { result := none, player := some p, skipped := false }
      else if trackIndex < 0 ∨ (p.queueTracks.length : Int) ≤ trackIndex then
        { result := none, player := some p, skipped := false }
      else
        match p.queueTracks[trackIndex.toNat]? with
        | none => { result := none, player := some p, skipped := false }
        | some targetTrack =>
            { result := some targetTrack
              player := some { queueTracks := p.queueTracks.drop trackIndex.toNat }
              skipped := true }

/-- Value of a digit string, most significant digit first. -/
def digitsVal (cs : List Char) : Nat :=
  cs.foldl (fun n c => n * 10 + (c.toNat - '0'.toNat)) 0

/-- JS `parseInt` restricted to base 10: skip leading whitespace, then an
optional sign and the longest leading digit run; `none` models `NaN`. -/
def jsParseInt (str : String) : Option Int :=
  match str.data.dropWhile Char.isWhitespace with
  | '-' :: rest =>
      let ds := rest.takeWhile Char.isDigit
      if ds.isEmpty then none else some (-(digitsVal ds : Int))
  | '+' :: rest =>
      let ds := rest.takeWhile Char.isDigit
      if ds.isEmpty then none else some (digitsVal ds : Int)
  | cs =>
      let ds := cs.takeWhile Char.isDigit
      if ds.isEmpty then none else some (digitsVal ds : Int)

/-- JS string split on a separator character, on the character list of a string. -/
def splitOnChar (sep : Char) : List Char → List (List Char)
  | [] => [[]]
  | c :: rest =>
      let r := splitOnChar sep rest
      if c = sep then [] :: r
      else
        match r with
        | [] => [[c]]
        | g :: gs => (c :: g) :: gs

/-- Models `customId.split(..)` with the underscore separator. -/
def splitUnderscore (customId : String) : List String :=
  (splitOnChar '_' customId.data).map List.asString

/-- The customId parsing section of `handleSearchNavigation`
(`src/interactions/searchNavigation.js` lines 117–153): split on `'_'`,
require at least three parts and the `search` head, and extract
`(action, sessionId, extra)` according to the action shape. -/
def parseNav (customId : String) : Option (String × String × List String) :=
  let parts := splitUnderscore customId
  if parts.length < 3 then none
  else
    match parts with
    | headPart :: action :: rest =>
        if headPart ≠ "search" then none
        else if action = "toggle" then
          match rest with
          | sid :: e0 :: extra => some (action, sid, e0 :: extra)
          | _ => none
        else if action = "add" ∧ rest.head? = some "selected" then
          match rest with
          | _ :: sid :: _ => some (action, sid, ["selected"])
          | _ => none
        else
          match rest with
          | sid :: extra => some (action, sid, extra)
          | _ => none
    | _ => none

/-- A follow-up message sent by the toggle branch of the handler. -/
inductive FollowUpMsg where
  | trackAdded (title : String)
  | trackRemoved (title : String)
deriving DecidableEq

/-- The user-visible reply produced by `handleSearchNavigation`. -/
inductive NavReply where
  | silent
  | sessionExpired
  | notYourSession
  | playerStopped
  | cancelled
  | acknowledged (updatedView : Bool) (followUp : Option FollowUpMsg)
deriving DecidableEq

/-- Work the handler schedules with `setImmediate` (queue mutation plus the
matching `markTrackQueued`/`unmarkTrackQueued` bookkeeping). -/
inductive DeferredAction where
  | enqueueTrack (track : Track) (trackIndex : Int)
  | removeFromQueue (track : Track) (trackIndex : Int)
deriving DecidableEq

/-- Everything `handleSearchNavigation` does that is visible in this model. -/
structure NavOutcome where
  store : Store
  reply : NavReply
  deferred : List DeferredAction
deriving DecidableEq

/-- The state-relevant core of `handleSearchNavigation`
(`src/interactions/searchNavigation.js` lines 112–314).  `playerExists`
models `client.lavalink.getPlayer(guild.id)` being non-null. -/
def handleSearchNavigation (store : Store) (customId : String) (actingUserId : String)
    (playerExists : Bool) : NavOutcome :=
  match parseNav customId with
  | none => { store := store, reply := .silent, deferred := [] }
  | some (action, sessionId, extra) =>
      match getSession store sessionId with
      | none => { store := store, reply := .sessionExpired, deferred := [] }
      | some session =>
          if session.userId ≠ actingUserId then
            { store := store, reply := .notYourSession, deferred := [] }
          else if playerExists = false then
            if action = "prev" ∨ action = "next" then
              { store := store, reply := .playerStopped, deferred := [] }
            else
              { store := (deleteSession store sessionId).1
                reply := .playerStopped, deferred := [] }
          else if action = "prev" then
            let r := updatePage store sessionId (session.currentPage - 1)
            { store := r.1
              reply := .acknowledged (r.2 && (getCurrentPageData r.1 sessionId).isSome) none
              deferred := [] }
          else if action = "next" then
            let r := updatePage store sessionId (session.currentPage + 1)
            { store := r.1
              reply := .acknowledged (r.2 && (getCurrentPageData r.1 sessionId).isSome) none
              deferred := [] }
          else if action = "toggle" then
            match extra.head? with
            | none => { store := store, reply := .acknowledged false none, deferred := [] }
            | some e0 =>
                match jsParseInt e0 with
                | none => { store := store, reply := .acknowledged false none, deferred := [] }
                | some trackIndex =>
                    let r := toggleTrackSelection store sessionId trackIndex
                    let isSelected := r.2
                    let trackOpt :=
                      if 0 ≤ trackIndex then session.tracks[trackIndex.toNat]? else none
                    match trackOpt with
                    | none =>
                        { store := r.1
                          reply := .acknowledged (getCurrentPageData r.1 sessionId).isSome none
                          deferred := [] }
                    | some track =>
                        if isSelected then
                          { store := r.1
                            reply := .acknowledged (getCurrentPageData r.1 sessionId).isSome
                              (some (.trackAdded (trackTitle track)))
                            deferred := [.enqueueTrack track trackIndex] }
                        else
                          { store := r.1
                            reply := .acknowledged (getCurrentPageData r.1 sessionId).isSome
                              (some (.trackRemoved (trackTitle track)))
                            deferred := [.removeFromQueue track trackIndex] }
          else if action = "cancel" then
            { store := (deleteSession store sessionId).1, reply := .cancelled, deferred := [] }
          else
            { store := store, reply := .acknowledged false none, deferred := [] }

/-! Lemmas about the Map model -/

theorem mapGet_mapMutate_self (store : Store) (sid : String) (v : Session) :
    mapGet (mapMutate store sid v) sid = (mapGet store sid).map (fun _ => v) := by
  induction store with
  | nil => rfl
  | cons p rest ih =>
      by_cases h : p.1 = sid
      · simp [mapMutate, mapGet, h]
      · simp [mapMutate, mapGet, h, ih]

theorem mapGet_mapSet_self (store : Store) (sid : String) (v : Session) :
    mapGet (mapSet store sid v) sid = some v := by
  induction store with
  | nil => simp [mapSet, mapGet]
  | cons p rest ih =>
      by_cases h : p.1 = sid
      · simp [mapSet, mapGet, h]
      · simp [mapSet, mapGet, h, ih]

theorem mapGet_eq_none_of_not_mem (store : Store) (sid : String)
    (h : sid ∉ store.map Prod.fst) : mapGet store sid = none := by
  induction store with
  | nil => rfl
  | cons p rest ih =>
      simp only [List.map_cons, List.mem_cons, not_or] at h
      have hne : p.1 ≠ sid := fun hp => h.1 hp.symm
      simp [mapGet, hne, ih h.2]

theorem mapGet_mapDelete_self (store : Store) (sid : String) (hwf : storeWF store) :
    mapGet (mapDelete store sid).1 sid = none := by
  induction store with
  | nil => rfl
  | cons p rest ih =>
      rw [storeWF, List.map_cons, List.nodup_cons] at hwf
      by_cases h : p.1 = sid
      · simpa [mapDelete, h] using mapGet_eq_none_of_not_mem rest sid (h ▸ hwf.1)
      · simp [mapDelete, h, mapGet, ih hwf.2]

theorem mapDelete_of_none (store : Store) (sid : String) (h : mapGet store sid = none) :
    mapDelete store sid = (store, false) := by
  induction store with
  | nil => rfl
  | cons p rest ih =>
      by_cases hp : p.1 = sid
      · simp [mapGet, hp] at h
      · simp only [mapGet, if_neg hp] at h
        simp [mapDelete, hp, ih h]

/-! Lemmas about ceiling division and slicing -/

theorem jsCeilDiv_pos {n k : Nat} (hn : 1 ≤ n) (hk : 1 ≤ k) : 1 ≤ jsCeilDiv n k := by
  unfold jsCeilDiv
  rw [Nat.one_le_div_iff (by omega)]
  omega

theorem jsCeilDiv_bounds (n k : Nat) (hk : 1 ≤ k) :
    n ≤ jsCeilDiv n k * k ∧ jsCeilDiv n k * k < n + k := by
  unfold jsCeilDiv
  have h := Nat.div_add_mod (n + k - 1) k
  have hm : (n + k - 1) % k < k := Nat.mod_lt _ (by omega)
  rw [Nat.mul_comm] at h
  generalize hq : (n + k - 1) / k * k = m at h ⊢
  omega

theorem jsCeilDiv_step {n k : Nat} (hn : 1 ≤ n) (hk : 1 ≤ k) :
    jsCeilDiv n k = jsCeilDiv (n - k) k + 1 := by
  unfold jsCeilDiv
  by_cases h : k ≤ n
  · have he : n + k - 1 = (n - k + k - 1) + k := by omega
    rw [he, Nat.add_div_right _ (by omega)]
  · have h1 : n - k = 0 := by omega
    have h2 : (0 + k - 1) / k = 0 := Nat.div_eq_of_lt (by omega)
    have he : n + k - 1 = k * 1 + (n - 1) := by omega
    have h3 : (n - 1) / k = 0 := Nat.div_eq_of_lt (by omega)
    rw [h1, h2, he, Nat.mul_add_div (by omega), h3]

theorem jsSlice_natCast {α : Type _} (l : List α) (a k : Nat) :
    jsSlice l (a : Int) (min ((a : Int) + (k : Int)) (l.length : Int)) =
      (l.drop a).take k := by
  simp only [jsSlice]
  have h1 : ¬ ((a : Int) < 0) := by omega
  have h2 : ¬ (min ((a : Int) + (k : Int)) (l.length : Int) < 0) := by omega
  rw [if_neg h1, if_neg h2]
  rw [show (min (a : Int) (l.length : Int)).toNat = min a l.length by omega]
  rw [show (min (min ((a : Int) + (k : Int)) (l.length : Int)) (l.length : Int) -
        min (a : Int) (l.length : Int)).toNat = min (a + k) l.length - min a l.length by omega]
  by_cases hle : a ≤ l.length
  · rw [show min a l.length = a by omega]
    apply List.take_eq_take.mpr
    rw [List.length_drop]
    omega
  · rw [show min a l.length = l.length by omega]
    rw [List.drop_length, List.drop_eq_nil_of_le (by omega)]
    simp

theorem pages_flatten {α : Type _} (k : Nat) (hk : 1 ≤ k) :
    ∀ (fuel : Nat) (l : List α), l.length ≤ fuel →
      ((List.range (jsCeilDiv l.length k)).map (fun i => (l.drop (i * k)).take k)).flatten
        = l := by
  intro fuel
  induction fuel with
  | zero =>
      intro l hl
      have : l = [] := List.eq_nil_of_length_eq_zero (by omega)
      subst this
      have : jsCeilDiv 0 k = 0 := Nat.div_eq_of_lt (by omega)
      simp [this]
  | succ fuel ih =>
      intro l hl
      by_cases hnil : l = []
      · subst hnil
        have : jsCeilDiv 0 k = 0 := Nat.div_eq_of_lt (by omega)
        simp [this]
      · have hn : 1 ≤ l.length := List.length_pos.mpr hnil
        rw [jsCeilDiv_step hn hk, List.range_succ_eq_map]
        simp only [List.map_cons, List.flatten_cons, List.map_map]
        have harg : (fun i => (l.drop (i * k)).take k) ∘ Nat.succ =
            fun i => ((l.drop k).drop (i * k)).take k := by
          funext i
          simp only [Function.comp_apply, List.drop_drop]
          congr 2
          rw [Nat.succ_mul]
          ring
        have hlen : (l.drop k).length = l.length - k := List.length_drop k l
        rw [harg, show jsCeilDiv (l.length - k) k = jsCeilDiv (l.drop k).length k by
              rw [hlen],
            ih (l.drop k) (by omega)]
        simp [List.take_append_drop k l]

/-! Concrete fixtures -/

/-- A session shaped exactly as `createSession` shapes it, with the stated
tracks, page size, current page and creation time. -/
def sessionFor (tracks : List Track) (k : Nat) (p : Int) (createdAt : Nat) : Session :=
  { sessionId := "s", userId := "u", guildId := "g", query := "q", tracks := tracks
    selectedTracks := ∅, queuedTracks := ∅, currentPage := p, tracksPerPage := k
    createdAt := createdAt }

/-- A single concrete track. -/
def track0 : Track :=
  { info := some { title := some "t0", author := none, uri := none, duration := none } }

/-- Builds `n` concrete tracks with distinct titles. -/
def sampleTracks (n : Nat) : List Track :=
  (List.range n).map
    (fun i => { info := some { title := some (toString i), author := none, uri := none
                               duration := none } })

/-! Claims -/

/-- C1: the spec requires collision-free, cryptographically random session
ids with a `SessionCreationFailed` failure after a bounded retry budget.
The implemented `createSession` instead derives the id deterministically as
`` `${userId}-${Date.now()}` ``: two calls with the same `ownerUserId` in
the same millisecond (`Date.now() = 1000` here) return the **same**
sessionId, and the second call silently overwrites the first session (the
store still holds one session).  This theorem evaluates the embedded
`createSession` at that failing input. -/
theorem claimC1_sessionId_not_collision_free :
    (createSession [] "u" "g" [track0] "q" 1000).2 = "u-1000" ∧
    (createSession (createSession [] "u" "g" [track0] "q" 1000).1 "u" "g" [track0] "q" 1000).2
      = (createSession [] "u" "g" [track0] "q" 1000).2 ∧
    (createSession (createSession [] "u" "g" [track0] "q" 1000).1 "u" "g" [track0] "q" 1000).1.length
      = 1 := by
  refine ⟨rfl, rfl, rfl⟩

/-- C3 counterexample: on an empty track sequence, `getCurrentPageData`
reports `totalPages = Math.ceil(0 / 5) = 0`, not the `totalPages = 1`
claimed. -/
theorem claimC3_counterexample :
    (getCurrentPageData [("s", sessionFor [] 5 1 0)] "s").map PageData.totalPages ≠ some 1 ∧
    (getCurrentPageData [("s", sessionFor [] 5 1 0)] "s").map PageData.totalPages = some 0 := by
  refine ⟨by decide, by decide⟩

/-- C3 (amended): for an empty item sequence, the queue pagination
`paginatedQueue` does report exactly one page with empty items —
`totalPages = 1`, `hasNext = hasPrevious = false`, empty `content` — for
every requested page value and page size; the session pagination
`getCurrentPageData`, however, reports `totalPages = 0` (with empty items
and both flags false). -/
theorem claimC3_empty_pagination (page : Int) (k : Nat) :
    paginatedQueue ⟨[]⟩ page k =
      { content := "", currentPage := 1, totalPages := 1, totalTracks := 0
        hasNext := false, hasPrevious := false, startIndex := none, endIndex := none } ∧
    ∃ pd, getCurrentPageData [("s", sessionFor [] 5 1 0)] "s" = some pd ∧
      pd.totalPages = 0 ∧ pd.tracks = [] ∧ pd.hasNext = false ∧ pd.hasPrevious = false := by
  refine ⟨rfl, ⟨_, rfl, by decide, by decide, by decide, by decide⟩⟩

/-- C7 counterexample: sweeping with `maxAgeMs = 0` does **not** remove a
session created in the same millisecond as the sweep (`now - createdAt > 0`
is false when `createdAt = now`), so a non-empty store survives the sweep
and the returned count is `0`, not the size of the store. -/
theorem claimC7_counterexample :
    cleanupOldSessions [("s", sessionFor [] 5 1 100)] 100 0
      = ([("s", sessionFor [] 5 1 100)], 0) ∧
    ([("s", sessionFor [] 5 1 100)] : Store) ≠ [] := by
  refine ⟨rfl, by decide⟩

/-- The function `cleanupOldSessions` filters out exactly the entries with
`now - createdAt > maxAge` and counts them. -/
theorem cleanupOldSessions_eq (store : Store) (now maxAge : Nat) :
    cleanupOldSessions store now maxAge =
      (store.filter (fun p => ¬ (maxAge < now - p.2.createdAt)),
       store.countP (fun p => maxAge < now - p.2.createdAt)) := by
  induction store with
  | nil => rfl
  | cons p rest ih =>
      simp only [cleanupOldSessions, ih, List.filter_cons, List.countP_cons]
      by_cases h : maxAge < now - p.2.createdAt <;> simp [h]

/-- C7 (amended): the TTL sweep removes exactly the sessions **strictly**
older than `maxAgeMs` (i.e. `now - createdAt > maxAge`) and returns the
count removed; in particular with `maxAgeMs = 0` it removes exactly the
sessions created strictly before the sweep time — a session created in the
same millisecond as the sweep survives. -/
theorem claimC7_sweep (store : Store) (now maxAge : Nat) :
    ((cleanupOldSessions store now maxAge).1.length
        + (cleanupOldSessions store now maxAge).2 = store.length) ∧
    (∀ q : String × Session, q ∈ (cleanupOldSessions store now maxAge).1 ↔
        q ∈ store ∧ now - q.2.createdAt ≤ maxAge) ∧
    (maxAge = 0 → ∀ q : String × Session, q ∈ store → q.2.createdAt < now →
        q ∉ (cleanupOldSessions store now maxAge).1) := by
  have hmem : ∀ q : String × Session, q ∈ (cleanupOldSessions store now maxAge).1 ↔
      q ∈ store ∧ now - q.2.createdAt ≤ maxAge := by
    intro q
    rw [cleanupOldSessions_eq]
    simp [List.mem_filter, Nat.not_lt]
  refine ⟨?_, hmem, ?_⟩
  · clear hmem
    induction store with
    | nil => rfl
    | cons p rest ih =>
        simp only [cleanupOldSessions]
        by_cases h : maxAge < now - p.2.createdAt
        · simp only [if_pos h, List.length_cons]
          omega
        · simp only [if_neg h, List.length_cons]
          omega
  · intro h0 q hq hlt hmemq
    have := (hmem q).mp hmemq
    omega

/-- C7 witness: a session created at time `50` is removed by a sweep at
time `100` with `maxAgeMs = 0`. -/
theorem claimC7_sweep_witness :
    ("old", sessionFor [] 5 1 50) ∉
      (cleanupOldSessions [("old", sessionFor [] 5 1 50)] 100 0).1 :=
  (claimC7_sweep [("old", sessionFor [] 5 1 50)] 100 0).2.2 rfl _
    (List.mem_singleton.mpr rfl) (by decide)

/-- C4: `updatePage` returns `false` with no state change when the session
is absent; on an existing session (sessions always hold the non-empty track
list of a successful search, and `tracksPerPage = 5 ≥ 1`) it returns `true`
and stores `Math.max(1, Math.min(page, totalPages))`, which lies in
`[1, totalPages]` for `totalPages = ceil(|tracks| / pageSize)`; and a
freshly created session (non-empty tracks) starts at `currentPage = 1`,
which also satisfies `1 ≤ currentPage ≤ totalPages`. -/
theorem claimC4_updatePage (store : Store) (sid : String) (page : Int) :
    (getSession store sid = none → updatePage store sid page = (store, false)) ∧
    (∀ s : Session, getSession store sid = some s → s.tracks ≠ [] → 1 ≤ s.tracksPerPage →
      (updatePage store sid page).2 = true ∧
      getSession (updatePage store sid page).1 sid
        = some { s with currentPage := max 1 (min page ((jsCeilDiv s.tracks.length s.tracksPerPage : Nat) : Int)) } ∧
      1 ≤ max 1 (min page ((jsCeilDiv s.tracks.length s.tracksPerPage : Nat) : Int)) ∧
      max 1 (min page ((jsCeilDiv s.tracks.length s.tracksPerPage : Nat) : Int))
        ≤ ((jsCeilDiv s.tracks.length s.tracksPerPage : Nat) : Int)) ∧
    (∀ u g : String, ∀ tracks : List Track, ∀ q : String, ∀ now : Nat,
      tracks ≠ ([] : List Track) →
      ∃ s : Session,
        getSession (createSession store u g tracks q now).1
            (createSession store u g tracks q now).2 = some s ∧
        s.currentPage = 1 ∧ 1 ≤ s.currentPage ∧
        s.currentPage ≤ ((jsCeilDiv s.tracks.length s.tracksPerPage : Nat) : Int)) := by
  refine ⟨?_, ?_, ?_⟩
  · intro h
    simp only [getSession] at h
    simp [updatePage, h]
  · intro s hs hne hpp
    simp only [getSession] at hs
    have h1 : 1 ≤ jsCeilDiv s.tracks.length s.tracksPerPage :=
      jsCeilDiv_pos (List.length_pos.mpr hne) hpp
    have h1i : (1 : Int) ≤ ((jsCeilDiv s.tracks.length s.tracksPerPage : Nat) : Int) := by
      exact_mod_cast h1
    refine ⟨by simp [updatePage, hs], ?_, le_max_left _ _, max_le h1i (min_le_right _ _)⟩
    simp [updatePage, hs, getSession, mapGet_mapMutate_self]
  · intro u g tracks q now hne
    refine ⟨_, mapGet_mapSet_self store _ _, rfl, by norm_num, ?_⟩
    have h1 : 1 ≤ jsCeilDiv tracks.length 5 :=
      jsCeilDiv_pos (List.length_pos.mpr hne) (by norm_num)
    show (1 : Int) ≤ ((jsCeilDiv tracks.length 5 : Nat) : Int)
    exact_mod_cast h1

/-- C4 witness: requesting page `999` on a 12-track, 3-page session clamps
to page `3` and reports success. -/
theorem claimC4_updatePage_witness :
    (updatePage [("abc", sessionFor (sampleTracks 12) 5 1 0)] "abc" 999).2 = true ∧
    getSession (updatePage [("abc", sessionFor (sampleTracks 12) 5 1 0)] "abc" 999).1 "abc"
      = some { sessionFor (sampleTracks 12) 5 1 0 with currentPage := 3 } := by
  have h := (claimC4_updatePage [("abc", sessionFor (sampleTracks 12) 5 1 0)] "abc" 999).2.1
    (sessionFor (sampleTracks 12) 5 1 0) rfl (by decide) (by decide)
  refine ⟨h.1, h.2.1.trans (by decide)⟩

/-- Evaluation of `getCurrentPageData` on a singleton store. -/
theorem getCurrentPageData_single (s : Session) (sid : String) :
    getCurrentPageData [(sid, s)] sid = some
      { tracks := jsSlice s.tracks ((s.currentPage - 1) * s.tracksPerPage) (min ((s.currentPage - 1) * s.tracksPerPage + s.tracksPerPage) (s.tracks.length : Int))
        currentPage := s.currentPage
        totalPages := jsCeilDiv s.tracks.length s.tracksPerPage
        totalTracks := s.tracks.length
        hasNext := decide (s.currentPage < ((jsCeilDiv s.tracks.length s.tracksPerPage : Nat) : Int))
        hasPrevious := decide (1 < s.currentPage)
        startIndex := (s.currentPage - 1) * s.tracksPerPage
        endIndex := min ((s.currentPage - 1) * s.tracksPerPage + s.tracksPerPage) (s.tracks.length : Int)
        selectedTracks := s.selectedTracks
        selectedCount := s.selectedTracks.card } := by
  simp [getCurrentPageData, mapGet]

/-- C2: for a non-empty track list and any `pageSize ≥ 1`, every page `p ≥ 1`
of `getCurrentPageData` reports `totalPages = ceil(n / pageSize)` (the least
number of pages covering `n` items, pinned by the two bounds at the end),
`startIndex = (currentPage - 1) * pageSize`,
`endIndex = min(startIndex + pageSize, totalItems)`, and items equal to the
slice `[startIndex, endIndex)`; and the concatenation of the items of pages
`1..totalPages`, in order, is the original sequence. -/
theorem claimC2_pagination (tracks : List Track) (k : Nat) (hk : 1 ≤ k) (hn : tracks ≠ []) :
    (∀ p : Nat, 1 ≤ p →
      ∃ pd : PageData,
        getCurrentPageData [("s", sessionFor tracks k (p : Int) 0)] "s" = some pd ∧
        pd.totalPages = jsCeilDiv tracks.length k ∧
        pd.startIndex = ((p : Int) - 1) * k ∧
        pd.endIndex = min (pd.startIndex + k) (tracks.length : Int) ∧
        pd.tracks = (tracks.drop ((p - 1) * k)).take k) ∧
    ((List.range (jsCeilDiv tracks.length k)).map
        (fun i => ((getCurrentPageData [("s", sessionFor tracks k ((i + 1 : Nat) : Int) 0)] "s").map PageData.tracks).getD [])).flatten
      = tracks ∧
    tracks.length ≤ jsCeilDiv tracks.length k * k ∧
    jsCeilDiv tracks.length k * k < tracks.length + k := by
  have hpage : ∀ p : Nat, 1 ≤ p →
      ∃ pd : PageData,
        getCurrentPageData [("s", sessionFor tracks k (p : Int) 0)] "s" = some pd ∧
        pd.totalPages = jsCeilDiv tracks.length k ∧
        pd.startIndex = ((p : Int) - 1) * k ∧
        pd.endIndex = min (pd.startIndex + k) (tracks.length : Int) ∧
        pd.tracks = (tracks.drop ((p - 1) * k)).take k := by
    intro p hp
    refine ⟨_, getCurrentPageData_single (sessionFor tracks k (p : Int) 0) "s",
      rfl, rfl, rfl, ?_⟩
    show jsSlice tracks (((p : Int) - 1) * k) (min (((p : Int) - 1) * k + k) (tracks.length : Int))
      = (tracks.drop ((p - 1) * k)).take k
    rw [show ((p : Int) - 1) = (((p - 1 : Nat)) : Int) by omega]
    rw [show (((p - 1 : Nat)) : Int) * (k : Int) = (((p - 1) * k : Nat) : Int) by push_cast; ring]
    exact jsSlice_natCast tracks ((p - 1) * k) k
  refine ⟨hpage, ?_, (jsCeilDiv_bounds tracks.length k hk).1,
    (jsCeilDiv_bounds tracks.length k hk).2⟩
  have hfun : ∀ i ∈ List.range (jsCeilDiv tracks.length k),
      ((getCurrentPageData [("s", sessionFor tracks k ((i + 1 : Nat) : Int) 0)] "s").map PageData.tracks).getD []
        = (tracks.drop (i * k)).take k := by
    intro i _
    obtain ⟨pd, hpd, _, _, _, htr⟩ := hpage (i + 1) (by omega)
    rw [hpd]
    simpa using htr
  rw [List.map_congr_left hfun]
  exact pages_flatten k hk tracks.length tracks le_rfl

/-- C2 witness: on 12 concrete tracks with page size 5, the items of page 2
are exactly the slice of indices 5–9. -/
theorem claimC2_pagination_witness :
    ((getCurrentPageData [("s", sessionFor (sampleTracks 12) 5 ((2 : Nat) : Int) 0)] "s").map PageData.tracks).getD []
      = ((sampleTracks 12).drop 5).take 5 := by
  obtain ⟨pd, hpd, _, _, _, htr⟩ :=
    (claimC2_pagination (sampleTracks 12) 5 (by norm_num) (by decide)).1 2 (by norm_num)
  rw [hpd]
  simpa using htr

/-- C5: whenever a parsed search-navigation interaction targets an existing
session whose owner differs from the acting user, the handler replies with
the ownership error and stops: the store is returned unchanged (so
`currentPage`, `selectedTracks`, `queuedTracks` and session existence are
untouched) and no deferred work is scheduled. -/
theorem claimC5_ownership (store : Store) (customId : String) (uid : String) (pe : Bool)
    (action sid : String) (extra : List String)
    (hp : parseNav customId = some (action, sid, extra))
    (s : Session) (hs : getSession store sid = some s)
    (hne : s.userId ≠ uid) :
    handleSearchNavigation store customId uid pe
      = { store := store, reply := .notYourSession, deferred := [] } := by
  simp [handleSearchNavigation, hp, hs, hne]

/-- C5 witness: the user bob pressing `next` on a session owned by alice gets
the ownership error and the store is unchanged. -/
theorem claimC5_ownership_witness :
    handleSearchNavigation [("abc", { sessionFor [track0] 5 1 0 with userId := "alice" })]
        "search_next_abc" "bob" true
      = { store := [("abc", { sessionFor [track0] 5 1 0 with userId := "alice" })]
          reply := .notYourSession, deferred := [] } :=
  claimC5_ownership _ _ _ _ "next" "abc" [] (by decide) _ rfl (by decide)

/-- C6: `jumpToTrack` on an in-range index `i` returns the target track,
drops exactly the `i` queue entries before it (the remaining queue has
`n - i` tracks, starts with the target, and is the original queue shifted
by `i`) and skips into it; for an out-of-range index, or without a player,
it returns `null` and leaves the queue unchanged with no skip. -/
theorem claimC6_jumpToTrack (p : Player) (i : Int) :
    (∀ h2 : 0 ≤ i, ∀ h3 : i < (p.queueTracks.length : Int),
      ∃ t : Track, p.queueTracks[i.toNat]? = some t ∧
        jumpToTrack (some p) i
          = { result := some t, player := some { queueTracks := p.queueTracks.drop i.toNat }, skipped := true } ∧
        (p.queueTracks.drop i.toNat).length = p.queueTracks.length - i.toNat ∧
        (p.queueTracks.drop i.toNat).head? = some t ∧
        (∀ j : Nat, (p.queueTracks.drop i.toNat)[j]? = p.queueTracks[i.toNat + j]?)) ∧
    ((i < 0 ∨ (p.queueTracks.length : Int) ≤ i) →
      jumpToTrack (some p) i = { result := none, player := some p, skipped := false }) ∧
    jumpToTrack none i = { result := none, player := none, skipped := false } := by
  refine ⟨?_, ?_, rfl⟩
  · intro h2 h3
    have hlt : i.toNat < p.queueTracks.length := by omega
    have ht : p.queueTracks[i.toNat]? = some p.queueTracks[i.toNat] :=
      List.getElem?_eq_getElem hlt
    have hne : ¬ (p.queueTracks.length = 0) := by omega
    have hcond : ¬ (i < 0 ∨ (p.queueTracks.length : Int) ≤ i) := by omega
    refine ⟨_, ht, ?_, List.length_drop _ _, ?_, fun j => List.getElem?_drop _ _ _⟩
    · simp [jumpToTrack, hne, hcond, ht]
    · rw [List.head?_drop, ht]
  · intro hcond
    by_cases hzero : p.queueTracks.length = 0
    · simp [jumpToTrack, hzero]
    · simp [jumpToTrack, hzero, hcond]

/-- C6 witness: jumping to index 2 of a 5-track queue returns the third
track, drops the first two entries, and leaves 3 tracks. -/
theorem claimC6_jumpToTrack_witness :
    jumpToTrack (some { queueTracks := sampleTracks 5 }) 2
      = { result := (sampleTracks 5)[2]?, player := some { queueTracks := (sampleTracks 5).drop 2 }, skipped := true } ∧
    ((sampleTracks 5).drop 2).length = 3 := by
  obtain ⟨t, ht, heval, hlen, hhead, hget⟩ :=
    (claimC6_jumpToTrack { queueTracks := sampleTracks 5 } 2).1 (by norm_num) (by decide)
  refine ⟨?_, by decide⟩
  rw [heval, show (sampleTracks 5)[2]? = some t from ht]
  rfl

/-- Evaluation of `toggleTrackSelection` on an existing session and an
in-range, currently selected index. -/
theorem toggle_eval_mem (st : Store) (sid : String) (i : Int) (s : Session)
    (hs : mapGet st sid = some s) (h0 : 0 ≤ i) (hlen : i < (s.tracks.length : Int))
    (hm : i.toNat ∈ s.selectedTracks) :
    toggleTrackSelection st sid i
      = (mapMutate st sid { s with selectedTracks := s.selectedTracks.erase i.toNat }, false) := by
  have hcond : ¬ (i < 0 ∨ (s.tracks.length : Int) ≤ i) := by omega
  simp [toggleTrackSelection, hs, hcond, hm]

/-- Evaluation of `toggleTrackSelection` on an existing session and an
in-range, currently unselected index. -/
theorem toggle_eval_not_mem (st : Store) (sid : String) (i : Int) (s : Session)
    (hs : mapGet st sid = some s) (h0 : 0 ≤ i) (hlen : i < (s.tracks.length : Int))
    (hm : i.toNat ∉ s.selectedTracks) :
    toggleTrackSelection st sid i
      = (mapMutate st sid { s with selectedTracks := insert i.toNat s.selectedTracks }, true) := by
  have hcond : ¬ (i < 0 ∨ (s.tracks.length : Int) ≤ i) := by omega
  simp [toggleTrackSelection, hs, hcond, hm]

/-- C8: on an existing session and an in-range index, `toggleTrackSelection`
flips membership of the index in `selectedTracks`, and toggling the same
index twice restores the session exactly; on an out-of-range index or an
absent session, the store is unchanged and `false` is returned. -/
theorem claimC8_toggle_roundtrip (store : Store) (sid : String) (i : Int) :
    (∀ s : Session, getSession store sid = some s → 0 ≤ i → i < (s.tracks.length : Int) →
      ∃ s1 : Session, getSession (toggleTrackSelection store sid i).1 sid = some s1 ∧
        s1.selectedTracks = (if i.toNat ∈ s.selectedTracks then s.selectedTracks.erase i.toNat else insert i.toNat s.selectedTracks) ∧
        getSession (toggleTrackSelection (toggleTrackSelection store sid i).1 sid i).1 sid = some s) ∧
    (∀ s : Session, getSession store sid = some s → (i < 0 ∨ (s.tracks.length : Int) ≤ i) →
      toggleTrackSelection store sid i = (store, false)) ∧
    (getSession store sid = none → toggleTrackSelection store sid i = (store, false)) := by
  refine ⟨?_, ?_, ?_⟩
  · intro s hs h0 hlen
    simp only [getSession] at hs ⊢
    by_cases hm : i.toNat ∈ s.selectedTracks
    · have h1 := toggle_eval_mem store sid i s hs h0 hlen hm
      have hget1 : mapGet (toggleTrackSelection store sid i).1 sid
          = some { s with selectedTracks := s.selectedTracks.erase i.toNat } := by
        rw [h1, mapGet_mapMutate_self, hs]
        rfl
      refine ⟨_, hget1, by simp [hm], ?_⟩
      have hm2 : i.toNat ∉ s.selectedTracks.erase i.toNat := Finset.not_mem_erase _ _
      have h2 := toggle_eval_not_mem (toggleTrackSelection store sid i).1 sid i
        { s with selectedTracks := s.selectedTracks.erase i.toNat } hget1 h0 hlen hm2
      rw [h2, mapGet_mapMutate_self, hget1]
      simp [Finset.insert_erase hm]
    · have h1 := toggle_eval_not_mem store sid i s hs h0 hlen hm
      have hget1 : mapGet (toggleTrackSelection store sid i).1 sid
          = some { s with selectedTracks := insert i.toNat s.selectedTracks } := by
        rw [h1, mapGet_mapMutate_self, hs]
        rfl
      refine ⟨_, hget1, by simp [hm], ?_⟩
      have hm2 : i.toNat ∈ insert i.toNat s.selectedTracks := Finset.mem_insert_self _ _
      have h2 := toggle_eval_mem (toggleTrackSelection store sid i).1 sid i
        { s with selectedTracks := insert i.toNat s.selectedTracks } hget1 h0 hlen hm2
      rw [h2, mapGet_mapMutate_self, hget1]
      simp [Finset.erase_insert hm]
  · intro s hs hcond
    simp only [getSession] at hs
    simp [toggleTrackSelection, hs, hcond]
  · intro h
    simp only [getSession] at h
    simp [toggleTrackSelection, h]

/-- C8 witness: toggling index 1 twice on a fresh 3-track session restores
the original session; toggling index 7 (out of range) changes nothing. -/
theorem claimC8_toggle_roundtrip_witness :
    getSession (toggleTrackSelection (toggleTrackSelection [("abc", sessionFor (sampleTracks 3) 5 1 0)] "abc" 1).1 "abc" 1).1 "abc"
      = some (sessionFor (sampleTracks 3) 5 1 0) ∧
    toggleTrackSelection [("abc", sessionFor (sampleTracks 3) 5 1 0)] "abc" 7
      = ([("abc", sessionFor (sampleTracks 3) 5 1 0)], false) := by
  obtain ⟨s1, hget1, hflip, hround⟩ :=
    (claimC8_toggle_roundtrip [("abc", sessionFor (sampleTracks 3) 5 1 0)] "abc" 1).1
      (sessionFor (sampleTracks 3) 5 1 0) rfl (by norm_num) (by decide)
  exact ⟨hround, (claimC8_toggle_roundtrip [("abc", sessionFor (sampleTracks 3) 5 1 0)] "abc" 7).2.1
    (sessionFor (sampleTracks 3) 5 1 0) rfl (by decide)⟩

/-- C9: deleting a session makes a subsequent `getSession` on its id return
`null`, and every store method called with an absent sessionId returns its
normal failure value (`null`/`false`) with the store unchanged — no method
throws (all embedded operations are total functions). -/
theorem claimC9_absent_session_safe (store : Store) (sid : String) (page i : Int) :
    (storeWF store → getSession (deleteSession store sid).1 sid = none) ∧
    (getSession store sid = none →
      deleteSession store sid = (store, false) ∧
      updatePage store sid page = (store, false) ∧
      toggleTrackSelection store sid i = (store, false) ∧
      markTrackQueued store sid i = (store, false) ∧
      unmarkTrackQueued store sid i = (store, false) ∧
      clearSelections store sid = (store, false)) := by
  refine ⟨?_, ?_⟩
  · intro hwf
    exact mapGet_mapDelete_self store sid hwf
  · intro h
    simp only [getSession] at h
    exact ⟨mapDelete_of_none store sid h, by simp [updatePage, h],
      by simp [toggleTrackSelection, h], by simp [markTrackQueued, h],
      by simp [unmarkTrackQueued, h], by simp [clearSelections, h]⟩

/-- C9 witness: delete-then-get on a concrete store yields `none`, and
`updatePage` on an absent id reports `false` with the store unchanged. -/
theorem claimC9_absent_session_safe_witness :
    getSession (deleteSession [("abc", sessionFor [track0] 5 1 0)] "abc").1 "abc" = none ∧
    updatePage [("abc", sessionFor [track0] 5 1 0)] "zzz" 2
      = ([("abc", sessionFor [track0] 5 1 0)], false) := by
  refine ⟨(claimC9_absent_session_safe [("abc", sessionFor [track0] 5 1 0)] "abc" 0 0).1 (by simp [storeWF]), ?_⟩
  exact ((claimC9_absent_session_safe [("abc", sessionFor [track0] 5 1 0)] "zzz" 2 0).2 (by decide)).2.1

/-- C10: `toggleTrackSelection` conflates failure with deselection — it
returns `false` when it deselects a previously selected in-range index on
an existing session (mutating the store), and also returns `false` when the
session is absent or the index is out of range (leaving the store
unchanged); so a `false` result alone does not determine whether the
session was mutated.  The search-navigation toggle branch treats `false`
as "deselected": it replies with the track-removed message. -/
theorem claimC10_toggle_false_conflation (store : Store) (sid : String) (i : Int) (uid : String) :
    (∀ s : Session, getSession store sid = some s → 0 ≤ i → i < (s.tracks.length : Int) →
        i.toNat ∈ s.selectedTracks →
      (toggleTrackSelection store sid i).2 = false ∧
      getSession (toggleTrackSelection store sid i).1 sid
        = some { s with selectedTracks := s.selectedTracks.erase i.toNat } ∧
      ({ s with selectedTracks := s.selectedTracks.erase i.toNat } : Session) ≠ s) ∧
    (getSession store sid = none →
      (toggleTrackSelection store sid i).2 = false ∧
      (toggleTrackSelection store sid i).1 = store) ∧
    (∀ s : Session, getSession store sid = some s → (i < 0 ∨ (s.tracks.length : Int) ≤ i) →
      (toggleTrackSelection store sid i).2 = false ∧
      (toggleTrackSelection store sid i).1 = store) ∧
    (∀ s : Session, ∀ customId e0 : String,
      parseNav customId = some ("toggle", sid, [e0]) →
      getSession store sid = some s → s.userId = uid →
      jsParseInt e0 = some i → 0 ≤ i → i < (s.tracks.length : Int) → i.toNat ∈ s.selectedTracks →
      ∃ t : Track, s.tracks[i.toNat]? = some t ∧
        (handleSearchNavigation store customId uid true).reply
          = .acknowledged true (some (.trackRemoved (trackTitle t)))) := by
  refine ⟨?_, ?_, ?_, ?_⟩
  · intro s hs h0 hlen hm
    simp only [getSession] at hs ⊢
    have htog := toggle_eval_mem store sid i s hs h0 hlen hm
    refine ⟨by rw [htog], ?_, ?_⟩
    · rw [htog, mapGet_mapMutate_self, hs]
      rfl
    · intro heq
      have h2 := congrArg Session.selectedTracks heq
      exact (Finset.erase_eq_self.mp h2) hm
  · intro h
    simp only [getSession] at h
    constructor <;> simp [toggleTrackSelection, h]
  · intro s hs hcond
    simp only [getSession] at hs
    constructor <;> simp [toggleTrackSelection, hs, hcond]
  · intro s customId e0 hparse hs huid hpi h0 hlen hm
    simp only [getSession] at hs
    have ht : s.tracks[i.toNat]? = some s.tracks[i.toNat] :=
      List.getElem?_eq_getElem (by omega)
    have htog := toggle_eval_mem store sid i s hs h0 hlen hm
    have hget1 : mapGet (mapMutate store sid { s with selectedTracks := s.selectedTracks.erase i.toNat }) sid
        = some { s with selectedTracks := s.selectedTracks.erase i.toNat } := by
      rw [mapGet_mapMutate_self, hs]
      rfl
    refine ⟨_, ht, ?_⟩
    have hne : ¬ (s.userId ≠ uid) := by simp [huid]
    simp [handleSearchNavigation, hparse, getSession, hs, hne, hpi, htog, ht, h0,
      getCurrentPageData, hget1]

/-- C10 witness: on a session owned by Bob with track index 1 selected,
toggling index 1 returns `false` while mutating the store, toggling the
absent session id `"zzz"` also returns `false` without mutating, and the
handler maps the `false` toggle result to the "removed" follow-up. -/
theorem claimC10_toggle_false_conflation_witness :
    (toggleTrackSelection [("abc", { sessionFor (sampleTracks 3) 5 1 0 with userId := "bob", selectedTracks := {1} })] "abc" 1).2 = false ∧
    (toggleTrackSelection [("abc", { sessionFor (sampleTracks 3) 5 1 0 with userId := "bob", selectedTracks := {1} })] "zzz" 1).2 = false ∧
    (toggleTrackSelection [("abc", { sessionFor (sampleTracks 3) 5 1 0 with userId := "bob", selectedTracks := {1} })] "zzz" 1).1
      = [("abc", { sessionFor (sampleTracks 3) 5 1 0 with userId := "bob", selectedTracks := {1} })] ∧
    (handleSearchNavigation [("abc", { sessionFor (sampleTracks 3) 5 1 0 with userId := "bob", selectedTracks := {1} })] "search_toggle_abc_1" "bob" true).reply
      = .acknowledged true (some (.trackRemoved "1")) := by
  have hbase := claimC10_toggle_false_conflation
    [("abc", { sessionFor (sampleTracks 3) 5 1 0 with userId := "bob", selectedTracks := {1} })] "abc" 1 "bob"
  have habsent := claimC10_toggle_false_conflation
    [("abc", { sessionFor (sampleTracks 3) 5 1 0 with userId := "bob", selectedTracks := {1} })] "zzz" 1 "bob"
  have h1 := (hbase.1 { sessionFor (sampleTracks 3) 5 1 0 with userId := "bob", selectedTracks := {1} }
    rfl (by norm_num) (by decide) (by decide)).1
  have h2 := habsent.2.1 (by decide)
  obtain ⟨t, ht, hreply⟩ := hbase.2.2.2
    { sessionFor (sampleTracks 3) 5 1 0 with userId := "bob", selectedTracks := {1} }
    "search_toggle_abc_1" "1" (by decide) rfl rfl (by decide) (by norm_num) (by decide) (by decide)
  have hteq : t = { info := some { title := some "1", author := none, uri := none, duration := none } } := by
    have ht2 : (sampleTracks 3)[1]? = some ({ info := some { title := some "1", author := none, uri := none, duration := none } } : Track) := by decide
    have := ht.symm.trans ht2
    exact Option.some.inj this
  refine ⟨h1, h2.1, h2.2, ?_⟩
  rw [hreply, hteq]
  rfl

end BeatDock
